/-
Verification of the descriptor-fragment framework and the message-to-chain
compiler/scheduler of the bcm2835 DMA SPI driver.

The definitions below are a shallow embedding of the C sources:
  * include/linux/dma-fragment.h   (fragment cache, links, transforms)
  * drivers/spi/spi-bcm2835dma_drv.c  (merge engine, scheduler, reclaim walk)

Machine integers (u32 counters, lengths) are modelled as Nat; the properties
proved only involve unit increments/decrements on consistent states, so
wrap-around behaviour of u32 is never in play.  Pointers to fragments and
dma_links are modelled as Nat identities; NULL-able pointers as Option.
Functions of the repository that are declared but whose definition is not
part of the sources (dma-fragment.c, spi-dmafragment.c) are modelled from
the specification and marked as such in their doc comments.
-/
import Mathlib

namespace SpiBcm2835Dma

/-- Allocation context flags: `kernel` is the blocking-allowed GFP_KERNEL
context, `atomic` the non-blocking GFP_ATOMIC context used on the hot path.
An allocation may sleep exactly when performed with the `kernel` flags. -/
inductive Gfp where
  | kernel : Gfp
  | atomic : Gfp
deriving DecidableEq

/-- State of one `struct dma_fragment_cache` (dma-fragment.h:450-471).
`idle`/`active` are the two fragment lists (fragments are identified by a
Nat id), the `count_*` fields are the u32/unsigned-long statistics counters.
`allocSupply` is the oracle of outcomes of successive calls to the cache's
`allocateFragment` function (`none` = allocation failure); `allocCalls`
records every allocator invocation as a pair (gfp flags used, whether the
new fragment was destined for the idle list). -/
structure CacheState where
  idle : List Nat
  active : List Nat
  count_active : Nat
  count_idle : Nat
  count_allocated : Nat
  count_allocated_kernel : Nat
  count_fetched : Nat
  allocSupply : List (Option Nat)
  allocCalls : List (Gfp × Bool)
deriving DecidableEq

/-- Modelled from the spec: `dma_fragment_cache_add` is only declared in
dma-fragment.h (line 505); its definition (dma-fragment.c) is not among the
sources.  Per the spec (§4.1) it allocates a new Fragment via the cache's
allocator with the given flags and places it directly on the idle or the
active list according to the flag, updating the allocation counters.  The
allocator outcome is drawn from `allocSupply` (an exhausted supply counts
as a failing allocator call); every allocator call is logged. -/
def dma_fragment_cache_add (c : CacheState) (gfp : Gfp) (toIdle : Bool) :
    Option Nat × CacheState :=
  let outcome := match c.allocSupply with
    | [] => none
    | o :: _ => o
  let c1 : CacheState :=
    { c with
      allocSupply := c.allocSupply.tail
      allocCalls := c.allocCalls ++ [(gfp, toIdle)] }
  match outcome with
  | none => (none, c1)
  | some f =>
    let c2 : CacheState :=
      { c1 with
        count_allocated := c1.count_allocated + 1
        count_allocated_kernel :=
          c1.count_allocated_kernel + (if gfp = Gfp.kernel then 1 else 0) }
    if toIdle then
      (some f, { c2 with
                  idle := c2.idle ++ [f]
                  count_idle := c2.count_idle + 1 })
    else
      (some f, { c2 with
                  active := f :: c2.active
                  count_active := c2.count_active + 1 })

/-- `dma_fragment_cache_fetch` (dma-fragment.h:526-565).  Under the cache
lock: if the idle list is non-empty, move its first fragment to the active
list and adjust the counters, re-checking whether idle became empty;
`count_fetched` is always incremented.  Outside the lock: if nothing was
found, allocate a fragment directly into the active list; and if the flags
are GFP_KERNEL and the idle list was (or became) empty, allocate one more
fragment into the idle list to keep the pool warm. -/
def dma_fragment_cache_fetch (c : CacheState) (gfp : Gfp) :
    Option Nat × CacheState :=
  match c.idle with
  | f :: restIdle =>
    (some f,
      if gfp = Gfp.kernel ∧ restIdle.isEmpty then
        (dma_fragment_cache_add
          { c with
              idle := restIdle
              active := f :: c.active
              count_active := c.count_active + 1
              count_idle := c.count_idle - 1
              count_fetched := c.count_fetched + 1 } gfp true).2
      else
        { c with
            idle := restIdle
            active := f :: c.active
            count_active := c.count_active + 1
            count_idle := c.count_idle - 1
            count_fetched := c.count_fetched + 1 })
  | [] =>
    ((dma_fragment_cache_add
        { c with count_fetched := c.count_fetched + 1 } gfp false).1,
      if gfp = Gfp.kernel then
        (dma_fragment_cache_add
          (dma_fragment_cache_add
            { c with count_fetched := c.count_fetched + 1 } gfp false).2
          gfp true).2
      else
        (dma_fragment_cache_add
          { c with count_fetched := c.count_fetched + 1 } gfp false).2)

/-- `dma_fragment_cache_return` (dma-fragment.h:572-591).  `hasCache` models
whether `fragment->cache` is a non-NULL owning-cache back-reference and `c`
is that cache's state.  With an owning cache the fragment is moved (under
the lock) from the active list back to the idle list and the counters are
adjusted; without one the function only prints an error (the returned Bool
records that this loud failure path was taken) and modifies nothing. -/
def dma_fragment_cache_return (hasCache : Bool) (fid : Nat) (c : CacheState) :
    CacheState × Bool :=
  if hasCache then
    ({ c with
        idle := fid :: c.idle
        active := c.active.erase fid
        count_idle := c.count_idle + 1
        count_active := c.count_active - 1 }, false)
  else
    (c, true)

/-- One `struct dma_link` (dma-fragment.h:45-56), reduced to the fields the
claims are about: its identity and the `fragment` back-reference to the
owning fragment (a NULL-able pointer, modelled as the owner's id). -/
structure DmaLink where
  lid : Nat
  fragment : Option Nat
deriving DecidableEq

/-- One `struct dma_fragment` (dma-fragment.h:220-245), reduced to its
identity and its `dma_link_list`. -/
structure DmaFragment where
  fid : Nat
  dma_link_list : List DmaLink
deriving DecidableEq

/-- `dma_fragment_init` (dma-fragment.h:252-267): the fragment is zeroed
and its `dma_link_list` is initialised empty. -/
def dma_fragment_init (fid : Nat) : DmaFragment :=
  { fid := fid, dma_link_list := [] }

/-- `dma_fragment_add_dma_link` (dma-fragment.h:337-342): the link is
appended at the tail of the fragment's `dma_link_list` and its `fragment`
back-reference is set to the fragment. -/
def dma_fragment_add_dma_link (f : DmaFragment) (l : DmaLink) : DmaFragment :=
  { f with
      dma_link_list := f.dma_link_list ++ [{ l with fragment := some f.fid }] }

/-- One SPI transfer (`struct spi_transfer`), reduced to the fields the
merge engine reads: the four configuration fields compared at
spi-bcm2835dma_drv.c:436-449, the length, the cs_change flag and the
post-transfer delay. -/
structure Xfer where
  speed_hz : Nat
  tx_nbits : Nat
  rx_nbits : Nat
  bits_per_word : Nat
  len : Nat
  cs_change : Bool
  delay_usecs : Nat
deriving DecidableEq

/-- One `struct spi_message` as this driver sees it: its transfer list,
whether a completion callback is attached (`msg->complete != NULL`), and
the two-word completion sentinel reachable through
`msg->state->complete_data` (`none` models a NULL `complete_data`
pointer). -/
structure Msg where
  transfers : List Xfer
  hasComplete : Bool
  complete_data : Option (Nat × Nat)
deriving DecidableEq

/-- The per-entry test of the reclaim walk
(spi-bcm2835dma_drv.c:189-198): an entry blocks the walk exactly when it
has a `complete_data` pointer and both sentinel words read zero; an entry
whose sentinel holds any other value — or that has no sentinel pointer at
all — is treated as completed. -/
def msgCompleted (m : Msg) : Bool :=
  match m.complete_data with
  | none => true
  | some p => !(p.1 == 0 && p.2 == 0)

/-- `bcm2835dma_release_cb_chain_complete` (spi-bcm2835dma_drv.c:157-226).
The loop repeatedly peeks the queue head; it returns on an empty queue, or
when the head has a sentinel that still reads (0,0).  Otherwise the head is
dequeued and processed (status reset, post-dma transforms executed,
fragment released, completion callback invoked) and the loop continues.
The model returns the processed messages, in processing order, together
with the remaining queue. -/
def bcm2835dma_release_cb_chain_complete : List Msg → List Msg × List Msg
  | [] => ([], [])
  | m :: rest =>
    if msgCompleted m then
      let r := bcm2835dma_release_cb_chain_complete rest
      (m :: r.1, r.2)
    else
      ([], m :: rest)

/-- One element of a compiled chain: which template fragment was spliced
in, carrying the runtime values its Pre-transforms are bound to.  The five
constructors correspond to the five template caches used by the merge loop
(`fragment_setup_spi`, `fragment_transfer`, `fragment_cs_deselect`,
`fragment_delay`, `fragment_trigger_irq`). -/
inductive ChainElem where
  | setupE (speed_hz tx_nbits rx_nbits bits_per_word : Nat) : ChainElem
  | transferE (len : Nat) : ChainElem
  | deselectE : ChainElem
  | delayE (usecs : Nat) : ChainElem
  | triggerE : ChainElem
deriving DecidableEq

/-- Which fragment cache a spliced fragment was fetched from. -/
inductive CacheTag where
  | mergedT | setupT | transferT | deselectT | delayT | triggerT
deriving DecidableEq

/-- The six fragment caches of `struct bcm2835dma_spi`. -/
structure Caches where
  merged : CacheState
  setup : CacheState
  transfer : CacheState
  deselect : CacheState
  delay : CacheState
  trigger : CacheState
deriving DecidableEq

/-- The chain a merged fragment has accumulated so far, together with the
fragments already spliced into it (tagged by their source cache). -/
structure MergeAcc where
  chain : List ChainElem
  spliced : List (CacheTag × Nat)
deriving DecidableEq

/-- A successfully compiled `struct spi_merged_dma_fragment`: the id of
the container fragment fetched from the merged-fragment cache, the
compiled chain, and the spliced sub-fragments. -/
structure MergedFrag where
  mergedId : Nat
  chain : List ChainElem
  spliced : List (CacheTag × Nat)
deriving DecidableEq

/-- Outcome of the next Pre-transform bind, drawn from a failure oracle;
an exhausted oracle means the bind succeeds. -/
def headBind (binds : List Bool) : Bool :=
  match binds with
  | [] => true
  | b :: _ => b

/-- Modelled from the spec: `spi_merged_dma_fragment_merge_fragment_cache`
is called from spi-bcm2835dma_drv.c but defined outside the provided
sources.  Per the spec (§4.3) splicing fetches one Fragment from the given
cache (`dma_fragment_cache_fetch`, which is in the sources), binds its
Pre-transforms — which may fail, modelled by the `bindOk` oracle value —
and links it at the tail of the chain under construction.  A fetch or bind
failure is returned as an error; the fetched fragment (if any) stays on
its cache's active list, as nothing in the sources moves it back. -/
def spi_merged_dma_fragment_merge_fragment_cache (c : CacheState) (gfp : Gfp)
    (bindOk : Bool) (tag : CacheTag) (e : ChainElem) (acc : MergeAcc) :
    Option MergeAcc × CacheState :=
  match dma_fragment_cache_fetch c gfp with
  | (none, c1) => (none, c1)
  | (some fid, c1) =>
    if bindOk then
      (some { chain := acc.chain ++ [e], spliced := acc.spliced ++ [(tag, fid)] }, c1)
    else
      (none, c1)

/-- Splice from `bs->fragment_setup_spi` (spi-bcm2835dma_drv.c:453-456),
the configuration-setup template bound to the transfer's configuration. -/
def spliceSetup (caches : Caches) (binds : List Bool) (gfp : Gfp)
    (acc : MergeAcc) (x : Xfer) : Option MergeAcc × Caches × List Bool :=
  match spi_merged_dma_fragment_merge_fragment_cache caches.setup gfp
      (headBind binds) CacheTag.setupT
      (ChainElem.setupE x.speed_hz x.tx_nbits x.rx_nbits x.bits_per_word) acc with
  | (r, c1) => (r, { caches with setup := c1 }, binds.tail)

/-- Splice from `bs->fragment_transfer` (spi-bcm2835dma_drv.c:467-470),
the payload-transfer template bound to the transfer length. -/
def spliceTransfer (caches : Caches) (binds : List Bool) (gfp : Gfp)
    (acc : MergeAcc) (len : Nat) : Option MergeAcc × Caches × List Bool :=
  match spi_merged_dma_fragment_merge_fragment_cache caches.transfer gfp
      (headBind binds) CacheTag.transferT (ChainElem.transferE len) acc with
  | (r, c1) => (r, { caches with transfer := c1 }, binds.tail)

/-- Splice from `bs->fragment_cs_deselect` (spi-bcm2835dma_drv.c:481-484),
the boundary/deselect template. -/
def spliceDeselect (caches : Caches) (binds : List Bool) (gfp : Gfp)
    (acc : MergeAcc) : Option MergeAcc × Caches × List Bool :=
  match spi_merged_dma_fragment_merge_fragment_cache caches.deselect gfp
      (headBind binds) CacheTag.deselectT ChainElem.deselectE acc with
  | (r, c1) => (r, { caches with deselect := c1 }, binds.tail)

/-- Splice from `bs->fragment_delay` (spi-bcm2835dma_drv.c:488-491), the
delay template bound to the requested delay. -/
def spliceDelay (caches : Caches) (binds : List Bool) (gfp : Gfp)
    (acc : MergeAcc) (usecs : Nat) : Option MergeAcc × Caches × List Bool :=
  match spi_merged_dma_fragment_merge_fragment_cache caches.delay gfp
      (headBind binds) CacheTag.delayT (ChainElem.delayE usecs) acc with
  | (r, c1) => (r, { caches with delay := c1 }, binds.tail)

/-- Splice from `bs->fragment_trigger_irq` (spi-bcm2835dma_drv.c:502-505),
the completion-trigger template. -/
def spliceTrigger (caches : Caches) (binds : List Bool) (gfp : Gfp)
    (acc : MergeAcc) : Option MergeAcc × Caches × List Bool :=
  match spi_merged_dma_fragment_merge_fragment_cache caches.trigger gfp
      (headBind binds) CacheTag.triggerT ChainElem.triggerE acc with
  | (r, c1) => (r, { caches with trigger := c1 }, binds.tail)

/-- The configuration comparison of spi-bcm2835dma_drv.c:437-448: the four
successive if-else tests that set `needs_spi_setup` when the speed, the tx
or rx line widths, or the word size changed since the last transfer. -/
def cfgDiffers (a b : Xfer) : Bool :=
  a.speed_hz != b.speed_hz || a.tx_nbits != b.tx_nbits ||
    a.rx_nbits != b.rx_nbits || a.bits_per_word != b.bits_per_word

/-- The `needs_spi_setup` computation at the top of the merge loop body
(spi-bcm2835dma_drv.c:434-451): when the flag is already set it stays set;
otherwise it is recomputed by comparing `merged->last_transfer` with the
current transfer.  When the flag is clear and `last_transfer` is NULL the
source dereferences a NULL pointer; that undefined behaviour is modelled
as `none`. -/
def needsCheck (needs : Bool) (last : Option Xfer) (x : Xfer) : Option Bool :=
  if needs then some true
  else
    match last with
    | none => none
    | some lt => some (cfgDiffers lt x)

/-- One iteration of the merge loop of
`bcm2835dma_spi_message_to_dma_fragment` (spi-bcm2835dma_drv.c:428-496)
for transfer `x` with `is_last` telling whether it is the last transfer of
the message: recompute `needs_spi_setup`; splice a configuration-setup
fragment if it is set (and clear it); splice a payload-transfer fragment
if the length is non-zero (and record the transfer as `last_transfer`);
splice a deselect fragment if `cs_change` is requested or this is the last
transfer, else a delay fragment if a delay is requested.  Any failed
splice aborts the iteration with `none`, keeping the cache states the
failure left behind. -/
def mergeOneXfer (gfp : Gfp) (needs : Bool) (last : Option Xfer)
    (acc : MergeAcc) (caches : Caches) (binds : List Bool) (x : Xfer)
    (is_last : Bool) :
    Option (Bool × Option Xfer × MergeAcc) × Caches × List Bool :=
  match needsCheck needs last x with
  | none => (none, caches, binds)
  | some needs1 =>
    match (if needs1 then spliceSetup caches binds gfp acc x
           else (some acc, caches, binds)) with
    | (none, caches1, binds1) => (none, caches1, binds1)
    | (some acc1, caches1, binds1) =>
      match (if x.len ≠ 0 then spliceTransfer caches1 binds1 gfp acc1 x.len
             else (some acc1, caches1, binds1)) with
      | (none, caches2, binds2) => (none, caches2, binds2)
      | (some acc2, caches2, binds2) =>
        match (if x.cs_change || is_last then
                 spliceDeselect caches2 binds2 gfp acc2
               else if x.delay_usecs ≠ 0 then
                 spliceDelay caches2 binds2 gfp acc2 x.delay_usecs
               else (some acc2, caches2, binds2)) with
        | (none, caches3, binds3) => (none, caches3, binds3)
        | (some acc3, caches3, binds3) =>
          (some (false, if x.len ≠ 0 then some x else last, acc3),
           caches3, binds3)

/-- The merge loop (spi-bcm2835dma_drv.c:428-496) over the remaining
transfers, threading `needs_spi_setup`, `last_transfer`, the accumulated
chain and the cache / bind-oracle states. -/
def mergeXfers (gfp : Gfp) :
    List Xfer → Bool → Option Xfer → MergeAcc → Caches → List Bool →
    Option (Bool × Option Xfer × MergeAcc) × Caches × List Bool
  | [], needs, last, acc, caches, binds => (some (needs, last, acc), caches, binds)
  | x :: rest, needs, last, acc, caches, binds =>
    match mergeOneXfer gfp needs last acc caches binds x rest.isEmpty with
    | (none, caches1, binds1) => (none, caches1, binds1)
    | (some (needs1, last1, acc1), caches1, binds1) =>
      mergeXfers gfp rest needs1 last1 acc1 caches1 binds1

/-- `bcm2835dma_spi_message_to_dma_fragment` (spi-bcm2835dma_drv.c:391-530).
A merged container fragment is fetched from `bs->fragment_merged` (NULL on
failure), its fields are initialised (`needs_spi_setup = 1`,
`last_transfer = NULL`), the merge loop runs over the transfers, and if
the message has a completion callback a completion-trigger fragment is
spliced at the end.  On any error the function prints, dumps the partial
merged fragment and returns NULL (spi-bcm2835dma_drv.c:519-529) — the
cache states are returned exactly as the failure left them, since the
error path releases nothing. -/
def bcm2835dma_spi_message_to_dma_fragment (caches : Caches)
    (binds : List Bool) (gfp : Gfp) (msg : Msg) :
    Option MergedFrag × Caches × List Bool :=
  match dma_fragment_cache_fetch caches.merged gfp with
  | (none, cm) => (none, { caches with merged := cm }, binds)
  | (some mid, cm) =>
    match mergeXfers gfp msg.transfers true none
        { chain := [], spliced := [] } { caches with merged := cm } binds with
    | (none, caches1, binds1) => (none, caches1, binds1)
    | (some (_, _, acc1), caches1, binds1) =>
      if msg.hasComplete then
        match spliceTrigger caches1 binds1 gfp acc1 with
        | (none, caches2, binds2) => (none, caches2, binds2)
        | (some acc2, caches2, binds2) =>
          (some { mergedId := mid, chain := acc2.chain, spliced := acc2.spliced },
           caches2, binds2)
      else
        (some { mergedId := mid, chain := acc1.chain, spliced := acc1.spliced },
         caches1, binds1)

/-- Return one spliced fragment to the cache it was fetched from, via
`dma_fragment_cache_return`. -/
def returnTo (caches : Caches) (t : CacheTag) (fid : Nat) : Caches :=
  match t with
  | CacheTag.mergedT =>
    { caches with merged := (dma_fragment_cache_return true fid caches.merged).1 }
  | CacheTag.setupT =>
    { caches with setup := (dma_fragment_cache_return true fid caches.setup).1 }
  | CacheTag.transferT =>
    { caches with transfer := (dma_fragment_cache_return true fid caches.transfer).1 }
  | CacheTag.deselectT =>
    { caches with deselect := (dma_fragment_cache_return true fid caches.deselect).1 }
  | CacheTag.delayT =>
    { caches with delay := (dma_fragment_cache_return true fid caches.delay).1 }
  | CacheTag.triggerT =>
    { caches with trigger := (dma_fragment_cache_return true fid caches.trigger).1 }

/-- Modelled from the spec: `dma_fragment_release` is called from the
driver but defined outside the provided sources.  Per the spec (§3, §4.5)
releasing a merged fragment returns every spliced sub-fragment to its
source cache and then returns the container fragment itself to the
merged-fragment cache. -/
def dma_fragment_release (caches : Caches) (mf : MergedFrag) : Caches :=
  returnTo (mf.spliced.foldl (fun cs p => returnTo cs p.1 p.2) caches)
    CacheTag.mergedT mf.mergedId

/-- Posix error numbers used by the modelled code paths. -/
def EINVAL : Int := 22

/-- Posix error number for an out-of-memory failure. -/
def ENOMEM : Int := 12

/-- Posix error number for a prohibited operation. -/
def EPERM : Int := 1

/-- State shared by the submission path: the spi_master's FIFO message
queue, the RX DMA channel's registers (`hwActive` models the
BCM2835_DMA_CS_ACTIVE bit of the CS register, `dmaAddr` the last chain
head written to the ADDR register), the `struct bcm2835dma_spi`
statistics, the six fragment caches, the bind-failure oracle and the
outcome oracle for the pre-dma transform execution.  `chainLinks` counts
how often a newly submitted chain was linked behind a previous tail. -/
structure Sys where
  queue : List Msg
  hwActive : Bool
  dmaAddr : Option Msg
  chainLinks : Nat
  count_dma_started : Nat
  count_dma_still_running : Nat
  last_message_dma_was_running : Bool
  count_spi_messages : Nat
  caches : Caches
  binds : List Bool
  preOk : Bool
deriving DecidableEq

/-- `bcm2835dma_schedule_dma_fragment` (spi-bcm2835dma_drv.c:108-155).
Under the queue lock the message is appended at the queue tail and its
chain is linked behind the previous tail's chain when the queue was
non-empty.  Then the RX DMA status register is read: if the ACTIVE bit is
clear the hardware is armed — the chain's head address is written to the
ADDR register and the ACTIVE bit is asserted — and `count_dma_started` is
bumped; if the hardware is still running nothing is written and
`count_dma_still_running` is bumped instead. -/
def bcm2835dma_schedule_dma_fragment (sys : Sys) (msg : Msg) : Sys :=
  let sys1 : Sys :=
    { sys with
        queue := sys.queue ++ [msg]
        chainLinks := sys.chainLinks + (if sys.queue.isEmpty then 0 else 1) }
  if !sys1.hwActive then
    { sys1 with
        dmaAddr := some msg
        hwActive := true
        last_message_dma_was_running := false
        count_dma_started := sys1.count_dma_started + 1 }
  else
    { sys1 with
        last_message_dma_was_running := true
        count_dma_still_running := sys1.count_dma_still_running + 1 }

/-- `bcm2835dma_spi_transfer` (spi-bcm2835dma_drv.c:532-592), on the
non-optimized path (messages marked `is_optimized` reuse a chain that was
compiled — and verified — earlier; they are not modelled here).  The
message is compiled with GFP_ATOMIC; a NULL result returns -ENOMEM with
the queue untouched.  Otherwise the pre-dma transforms are executed
(`spi_merged_dma_fragment_execute_pre_dma_transforms` is outside the
provided sources; its success is drawn from the `preOk` oracle) — on
failure the merged fragment is released and -EPERM returned; on success
the statistics are updated and the fragment is scheduled. -/
def bcm2835dma_spi_transfer (sys : Sys) (msg : Msg) : Int × Sys :=
  match bcm2835dma_spi_message_to_dma_fragment sys.caches sys.binds
      Gfp.atomic msg with
  | (none, caches1, binds1) =>
    (-ENOMEM, { sys with caches := caches1, binds := binds1 })
  | (some mf, caches1, binds1) =>
    let sys1 : Sys := { sys with caches := caches1, binds := binds1 }
    if sys1.preOk then
      let sys2 : Sys :=
        { sys1 with count_spi_messages := sys1.count_spi_messages + 1 }
      (0, bcm2835dma_schedule_dma_fragment sys2 msg)
    else
      (-EPERM, { sys1 with caches := dma_fragment_release sys1.caches mf })

/-- `__spi_verify` from the spi core patch shipped with this driver (the
spi.c diff appended to spi-bcm2835dma_drv.c): a message with an empty
transfer list, or without a completion callback, is rejected with -EINVAL.
The further per-transfer validity checks of spi.c are elided in the
shipped excerpt and are irrelevant to the claims. -/
def spi_verify (msg : Msg) : Int :=
  if msg.transfers.isEmpty then -EINVAL
  else if !msg.hasComplete then -EINVAL
  else 0

/-- `__spi_async` from the spi core patch shipped with this driver, on the
non-optimized path: the message is verified first and any verification
error is returned before `master->transfer` (the driver's
`bcm2835dma_spi_transfer`, which is what touches the caches and the
queue) is ever invoked. -/
def spi_async (sys : Sys) (msg : Msg) : Int × Sys :=
  if spi_verify msg ≠ 0 then (spi_verify msg, sys)
  else bcm2835dma_spi_transfer sys msg

/-- A setup element is due before an operation when no configuration has
been set yet or the operation's configuration differs from the tracked
one. -/
def claimNeedsSetup (cur : Option Xfer) (x : Xfer) : Bool :=
  match cur with
  | none => true
  | some c => cfgDiffers c x

/-- The chain elements one operation contributes: a setup element exactly
when `claimNeedsSetup` holds against the tracked configuration, a
payload-transfer element exactly when the length is non-zero, then a
boundary element when the operation requests a deselect or is last, else
a delay element when a delay is requested. -/
def claimOpElems (cur : Option Xfer) (x : Xfer) (is_last : Bool) :
    List ChainElem :=
  (if claimNeedsSetup cur x then
     [ChainElem.setupE x.speed_hz x.tx_nbits x.rx_nbits x.bits_per_word]
   else []) ++
  (if x.len ≠ 0 then [ChainElem.transferE x.len] else []) ++
  (if x.cs_change || is_last then [ChainElem.deselectE]
   else if x.delay_usecs ≠ 0 then [ChainElem.delayE x.delay_usecs]
   else [])

/-- Claim-side description of the compiled chain with the tracked current
configuration the code actually keeps: the configuration of the last
preceding operation of non-zero length.  A zero-length operation splices
a setup when it differs from that configuration but does not update it,
so a later operation is compared against the stale configuration. -/
def claimExpectedChain : Option Xfer → List Xfer → List ChainElem
  | _, [] => []
  | cur, x :: rest =>
    claimOpElems cur x rest.isEmpty
      ++ claimExpectedChain (if x.len ≠ 0 then some x else cur) rest

/-- Claim-side description of the full compiled chain of a message: the
merge-rule chain of its operations, followed by a completion-trigger
element when the message carries a completion callback. -/
def claimChain (msg : Msg) : List ChainElem :=
  claimExpectedChain none msg.transfers ++
    (if msg.hasComplete then [ChainElem.triggerE] else [])

/-- The compiled chain as the original claim words it (spec §4.3): the
tracked current configuration is recorded anew at every operation — when
a setup is spliced the new configuration "is recorded as current", and
otherwise the operation's configuration already equals it — so
consecutive operations with identical configuration always share one
setup. -/
def origClaimChain : Option Xfer → List Xfer → List ChainElem
  | _, [] => []
  | cur, x :: rest =>
    (if claimNeedsSetup cur x then
       [ChainElem.setupE x.speed_hz x.tx_nbits x.rx_nbits x.bits_per_word]
     else []) ++
    (if x.len ≠ 0 then [ChainElem.transferE x.len] else []) ++
    (if x.cs_change || rest.isEmpty then [ChainElem.deselectE]
     else if x.delay_usecs ≠ 0 then [ChainElem.delayE x.delay_usecs]
     else []) ++
    origClaimChain (some x) rest

/-! ## Lemmas about the reclaim walk -/

theorem release_eq_takeWhile (q : List Msg) :
    bcm2835dma_release_cb_chain_complete q
      = (q.takeWhile msgCompleted, q.dropWhile msgCompleted) := by
  induction q with
  | nil => rfl
  | cons m rest ih =>
    by_cases h : msgCompleted m <;>
      simp [bcm2835dma_release_cb_chain_complete, List.takeWhile_cons,
        List.dropWhile_cons, h, ih]

theorem takeWhile_eq_take_length {α : Type} (p : α → Bool) :
    ∀ q : List α, q.takeWhile p = q.take (q.takeWhile p).length := by
  intro q
  induction q with
  | nil => simp
  | cons a l ih =>
    by_cases h : p a <;> simp [List.takeWhile_cons, h]
    exact ih

theorem dropWhile_eq_drop_length {α : Type} (p : α → Bool) :
    ∀ q : List α, q.dropWhile p = q.drop (q.takeWhile p).length := by
  intro q
  induction q with
  | nil => simp
  | cons a l ih =>
    by_cases h : p a <;> simp [List.takeWhile_cons, List.dropWhile_cons, h]
    exact ih

theorem takeWhile_length_le_of_get_false {α : Type} (p : α → Bool) :
    ∀ (q : List α) (k : Nat) (hk : k < q.length),
      p (q.get ⟨k, hk⟩) = false → (q.takeWhile p).length ≤ k := by
  intro q
  induction q with
  | nil => intro k hk; simp at hk
  | cons a l ih =>
    intro k hk h
    cases k with
    | zero =>
      simp only [List.get] at h
      simp [List.takeWhile_cons, h]
    | succ n =>
      by_cases hp : p a
      · simp only [List.takeWhile_cons, hp, if_pos, List.length_cons]
        have := ih n (by simpa using hk) (by simpa using h)
        omega
      · simp [List.takeWhile_cons, hp]

/-- Claim C1: the reclaim pipeline surfaces completions in exactly
submission order: the messages it dequeues and processes form an initial
prefix of the FIFO queue (the `take`/`drop` equations), and whenever the
k-th queued message is still pending, at most k messages are processed —
so message k+1 is never reported complete while message k is pending. -/
theorem c1_fifo_completion_order (q : List Msg) (k : Nat) (hk : k < q.length)
    (hpend : msgCompleted (q.get ⟨k, hk⟩) = false) :
    (bcm2835dma_release_cb_chain_complete q).1.length ≤ k ∧
    (bcm2835dma_release_cb_chain_complete q).1
      = q.take (bcm2835dma_release_cb_chain_complete q).1.length ∧
    (bcm2835dma_release_cb_chain_complete q).2
      = q.drop (bcm2835dma_release_cb_chain_complete q).1.length := by
  rw [release_eq_takeWhile]
  refine ⟨takeWhile_length_le_of_get_false msgCompleted q k hk hpend, ?_, ?_⟩
  · exact takeWhile_eq_take_length msgCompleted q
  · exact dropWhile_eq_drop_length msgCompleted q

/-- A message whose sentinel reads (0,0): still pending. -/
def mPend : Msg := { transfers := [], hasComplete := true, complete_data := some (0, 0) }

/-- A message whose sentinel was overwritten by hardware: completed. -/
def mDone : Msg := { transfers := [], hasComplete := true, complete_data := some (1, 2) }

theorem c1_fifo_completion_order_witness :
    (bcm2835dma_release_cb_chain_complete [mDone, mPend, mDone]).1.length ≤ 1 ∧
    (bcm2835dma_release_cb_chain_complete [mDone, mPend, mDone]).1
      = [mDone, mPend, mDone].take
          (bcm2835dma_release_cb_chain_complete [mDone, mPend, mDone]).1.length ∧
    (bcm2835dma_release_cb_chain_complete [mDone, mPend, mDone]).2
      = [mDone, mPend, mDone].drop
          (bcm2835dma_release_cb_chain_complete [mDone, mPend, mDone]).1.length :=
  c1_fifo_completion_order [mDone, mPend, mDone] 1 (by decide) (by decide)

/-- Claim C2: for a head transaction carrying a two-word sentinel, the
reclaim walk stops — dequeuing neither it nor any later entry — exactly
when both words read zero; for any other observed value the head is
dequeued and processed and the walk continues on the rest of the queue. -/
theorem c2_sentinel_gate (m : Msg) (rest : List Msg) (a b : Nat)
    (hcd : m.complete_data = some (a, b)) :
    ((a = 0 ∧ b = 0) →
        bcm2835dma_release_cb_chain_complete (m :: rest) = ([], m :: rest)) ∧
    (¬(a = 0 ∧ b = 0) →
        bcm2835dma_release_cb_chain_complete (m :: rest)
          = (m :: (bcm2835dma_release_cb_chain_complete rest).1,
             (bcm2835dma_release_cb_chain_complete rest).2)) := by
  constructor
  · rintro ⟨rfl, rfl⟩
    have hc : msgCompleted m = false := by simp [msgCompleted, hcd]
    simp [bcm2835dma_release_cb_chain_complete, hc]
  · intro hne
    have hc : msgCompleted m = true := by
      simp [msgCompleted, hcd]
      tauto
    simp [bcm2835dma_release_cb_chain_complete, hc]

theorem c2_sentinel_gate_witness :
    bcm2835dma_release_cb_chain_complete [mPend] = ([], [mPend]) ∧
    bcm2835dma_release_cb_chain_complete [mDone] = ([mDone], []) := by
  constructor
  · exact (c2_sentinel_gate mPend [] 0 0 rfl).1 ⟨rfl, rfl⟩
  · have h := (c2_sentinel_gate mDone [] 1 2 rfl).2 (by simp)
    simpa [bcm2835dma_release_cb_chain_complete] using h

/-! ## Lemmas about the chain scheduler -/

theorem schedule_active_eq (sys : Sys) (msg : Msg) (h : sys.hwActive = true) :
    bcm2835dma_schedule_dma_fragment sys msg =
      { sys with
          queue := sys.queue ++ [msg]
          chainLinks := sys.chainLinks + (if sys.queue.isEmpty then 0 else 1)
          last_message_dma_was_running := true
          count_dma_still_running := sys.count_dma_still_running + 1 } := by
  simp [bcm2835dma_schedule_dma_fragment, h]

theorem schedule_idle_eq (sys : Sys) (msg : Msg) (h : sys.hwActive = false) :
    bcm2835dma_schedule_dma_fragment sys msg =
      { sys with
          queue := sys.queue ++ [msg]
          chainLinks := sys.chainLinks + (if sys.queue.isEmpty then 0 else 1)
          dmaAddr := some msg
          hwActive := true
          last_message_dma_was_running := false
          count_dma_started := sys.count_dma_started + 1 } := by
  simp [bcm2835dma_schedule_dma_fragment, h]

theorem foldl_schedule_active :
    ∀ (msgs : List Msg) (sys : Sys), sys.hwActive = true →
      (msgs.foldl bcm2835dma_schedule_dma_fragment sys).count_dma_started
        = sys.count_dma_started ∧
      (msgs.foldl bcm2835dma_schedule_dma_fragment sys).count_dma_still_running
        = sys.count_dma_still_running + msgs.length ∧
      (msgs.foldl bcm2835dma_schedule_dma_fragment sys).queue
        = sys.queue ++ msgs ∧
      (msgs.foldl bcm2835dma_schedule_dma_fragment sys).hwActive = true := by
  intro msgs
  induction msgs with
  | nil => intro sys h; simp [h]
  | cons m rest ih =>
    intro sys h
    simp only [List.foldl_cons]
    have hs := schedule_active_eq sys m h
    obtain ⟨h1, h2, h3, h4⟩ :=
      ih (bcm2835dma_schedule_dma_fragment sys m) (by rw [hs]; exact h)
    refine ⟨?_, ?_, ?_, h4⟩
    · rw [h1, hs]
    · rw [h2, hs]
      simp only [List.length_cons]
      omega
    · rw [h3, hs]
      simp [List.append_assoc]

/-- Claim C3: the scheduler arms the hardware (writes the chain head
address to the ADDR register, asserts the ACTIVE bit and bumps
`count_dma_started`) exactly when the engine status read idle; and across
any non-empty burst of submissions during which the hardware never goes
idle, the arm happens exactly once — `count_dma_started` grows by one,
every other submission is a pure chain append counted by
`count_dma_still_running`, and the queue receives the burst in order. -/
theorem c3_single_arm (sys : Sys) (msg : Msg) (msgs : List Msg) :
    (((bcm2835dma_schedule_dma_fragment sys msg).count_dma_started
        = sys.count_dma_started + 1 ∧
      (bcm2835dma_schedule_dma_fragment sys msg).dmaAddr = some msg ∧
      (bcm2835dma_schedule_dma_fragment sys msg).hwActive = true)
      ↔ sys.hwActive = false) ∧
    (sys.hwActive = false → msgs ≠ [] →
      (msgs.foldl bcm2835dma_schedule_dma_fragment sys).count_dma_started
        = sys.count_dma_started + 1 ∧
      (msgs.foldl bcm2835dma_schedule_dma_fragment sys).count_dma_still_running
        = sys.count_dma_still_running + (msgs.length - 1) ∧
      (msgs.foldl bcm2835dma_schedule_dma_fragment sys).queue
        = sys.queue ++ msgs ∧
      (msgs.foldl bcm2835dma_schedule_dma_fragment sys).hwActive = true) := by
  constructor
  · cases h : sys.hwActive with
    | false =>
      constructor
      · intro _; rfl
      · intro _
        rw [schedule_idle_eq sys msg h]
        exact ⟨rfl, rfl, rfl⟩
    | true =>
      constructor
      · intro hc
        rw [schedule_active_eq sys msg h] at hc
        exact absurd hc.1 (by simp)
      · intro hc; exact absurd hc (by simp [h])
  · intro h hne
    cases msgs with
    | nil => exact absurd rfl hne
    | cons m rest =>
      simp only [List.foldl_cons]
      have hs := schedule_idle_eq sys m h
      obtain ⟨h1, h2, h3, h4⟩ :=
        foldl_schedule_active rest (bcm2835dma_schedule_dma_fragment sys m)
          (by rw [hs])
      refine ⟨?_, ?_, ?_, h4⟩
      · rw [h1, hs]
      · rw [h2, hs]
        simp only [List.length_cons]
        omega
      · rw [h3, hs]
        simp [List.append_assoc]

/-- An empty fragment cache with no pre-allocated fragments. -/
def cache0 : CacheState :=
  { idle := [], active := [], count_active := 0, count_idle := 0,
    count_allocated := 0, count_allocated_kernel := 0, count_fetched := 0,
    allocSupply := [], allocCalls := [] }

/-- Six empty caches. -/
def caches0 : Caches :=
  { merged := cache0, setup := cache0, transfer := cache0,
    deselect := cache0, delay := cache0, trigger := cache0 }

/-- A quiescent system: empty queue, idle hardware, empty caches. -/
def sys0 : Sys :=
  { queue := [], hwActive := false, dmaAddr := none, chainLinks := 0,
    count_dma_started := 0, count_dma_still_running := 0,
    last_message_dma_was_running := false, count_spi_messages := 0,
    caches := caches0, binds := [], preOk := true }

theorem c3_single_arm_witness :
    ([mDone, mPend].foldl bcm2835dma_schedule_dma_fragment sys0).count_dma_started
      = sys0.count_dma_started + 1 ∧
    ([mDone, mPend].foldl bcm2835dma_schedule_dma_fragment sys0).count_dma_still_running
      = sys0.count_dma_still_running + ([mDone, mPend].length - 1) ∧
    ([mDone, mPend].foldl bcm2835dma_schedule_dma_fragment sys0).queue
      = sys0.queue ++ [mDone, mPend] ∧
    ([mDone, mPend].foldl bcm2835dma_schedule_dma_fragment sys0).hwActive = true :=
  (c3_single_arm sys0 mDone [mDone, mPend]).2 rfl (by simp)

/-! ## Lemmas about the fragment cache -/

/-- The outcome of the next call to a cache's allocator. -/
def headAlloc (c : CacheState) : Option Nat :=
  match c.allocSupply with
  | [] => none
  | o :: _ => o

theorem add_count_fetched (c : CacheState) (gfp : Gfp) (toIdle : Bool) :
    (dma_fragment_cache_add c gfp toIdle).2.count_fetched = c.count_fetched := by
  unfold dma_fragment_cache_add
  cases hs : c.allocSupply with
  | nil => rfl
  | cons o rest =>
    cases o with
    | none => rfl
    | some f => cases toIdle <;> rfl

theorem add_allocCalls (c : CacheState) (gfp : Gfp) (toIdle : Bool) :
    (dma_fragment_cache_add c gfp toIdle).2.allocCalls
      = c.allocCalls ++ [(gfp, toIdle)] := by
  unfold dma_fragment_cache_add
  cases hs : c.allocSupply with
  | nil => rfl
  | cons o rest =>
    cases o with
    | none => rfl
    | some f => cases toIdle <;> rfl

theorem add_fst (c : CacheState) (gfp : Gfp) (toIdle : Bool) :
    (dma_fragment_cache_add c gfp toIdle).1 = headAlloc c := by
  unfold dma_fragment_cache_add headAlloc
  cases hs : c.allocSupply with
  | nil => rfl
  | cons o rest =>
    cases o with
    | none => rfl
    | some f => cases toIdle <;> rfl

theorem add_toIdle_active (c : CacheState) (gfp : Gfp) :
    (dma_fragment_cache_add c gfp true).2.active = c.active := by
  unfold dma_fragment_cache_add
  cases hs : c.allocSupply with
  | nil => rfl
  | cons o rest => cases o <;> rfl

theorem add_toActive_active (c : CacheState) (gfp : Gfp) (f : Nat)
    (h : headAlloc c = some f) :
    (dma_fragment_cache_add c gfp false).2.active = f :: c.active := by
  unfold dma_fragment_cache_add
  unfold headAlloc at h
  cases hs : c.allocSupply with
  | nil => rw [hs] at h; exact absurd h (by simp)
  | cons o rest =>
    rw [hs] at h
    cases o with
    | none => exact absurd h (by simp)
    | some g =>
      simp only [Option.some.injEq] at h
      subst h
      rfl

/-- A list is empty exactly when it is the empty list. -/
theorem listIsEmpty_iff (l : List Nat) : l.isEmpty = true ↔ l = [] := by
  cases l <;> simp

theorem fetch_cons_eq (c : CacheState) (gfp : Gfp) (f : Nat) (rest : List Nat)
    (hidle : c.idle = f :: rest) :
    dma_fragment_cache_fetch c gfp =
      (some f,
        if gfp = Gfp.kernel ∧ rest.isEmpty then
          (dma_fragment_cache_add
            { c with
                idle := rest
                active := f :: c.active
                count_active := c.count_active + 1
                count_idle := c.count_idle - 1
                count_fetched := c.count_fetched + 1 } gfp true).2
        else
          { c with
              idle := rest
              active := f :: c.active
              count_active := c.count_active + 1
              count_idle := c.count_idle - 1
              count_fetched := c.count_fetched + 1 }) := by
  unfold dma_fragment_cache_fetch
  rw [hidle]

theorem fetch_nil_eq (c : CacheState) (gfp : Gfp) (hidle : c.idle = []) :
    dma_fragment_cache_fetch c gfp =
      ((dma_fragment_cache_add
          { c with count_fetched := c.count_fetched + 1 } gfp false).1,
        if gfp = Gfp.kernel then
          (dma_fragment_cache_add
            (dma_fragment_cache_add
              { c with count_fetched := c.count_fetched + 1 } gfp false).2
            gfp true).2
        else
          (dma_fragment_cache_add
            { c with count_fetched := c.count_fetched + 1 } gfp false).2) := by
  unfold dma_fragment_cache_fetch
  rw [hidle]

/-- Claim C6: a fetch pops the first idle fragment to the active list when
idle is non-empty; with an empty idle list it allocates directly into the
active list using the cache's allocator (so a failing allocator yields an
immediate NULL); and its allocator calls are exactly: one non-idle
allocation iff the idle list was empty, plus one extra idle ("keep the
pool warm") allocation iff the context is GFP_KERNEL and the idle list was
or became empty — in particular a non-blocking fetch only ever allocates
with its own non-sleeping flags. -/
theorem c6_cache_fetch (c : CacheState) (gfp : Gfp) :
    (∀ f rest, c.idle = f :: rest →
        (dma_fragment_cache_fetch c gfp).1 = some f ∧
        (dma_fragment_cache_fetch c gfp).2.active = f :: c.active) ∧
    (c.idle = [] →
        (dma_fragment_cache_fetch c gfp).1 = headAlloc c ∧
        ∀ f, headAlloc c = some f →
          f ∈ (dma_fragment_cache_fetch c gfp).2.active) ∧
    ((dma_fragment_cache_fetch c gfp).2.allocCalls
        = c.allocCalls
          ++ (if c.idle.isEmpty then [(gfp, false)] else [])
          ++ (if gfp = Gfp.kernel ∧ c.idle.length ≤ 1 then [(gfp, true)]
              else [])) := by
  refine ⟨?_, ?_, ?_⟩
  · intro f rest hidle
    rw [fetch_cons_eq c gfp f rest hidle]
    refine ⟨rfl, ?_⟩
    split
    · rw [add_toIdle_active]
    · rfl
  · intro hidle
    rw [fetch_nil_eq c gfp hidle]
    constructor
    · rw [add_fst]; rfl
    · intro f hf
      have hf1 : headAlloc { c with count_fetched := c.count_fetched + 1 }
          = some f := hf
      split
      · rw [add_toIdle_active, add_toActive_active _ _ _ hf1]
        exact List.mem_cons_self f _
      · rw [add_toActive_active _ _ _ hf1]
        exact List.mem_cons_self f _
  · cases hidle : c.idle with
    | cons f rest =>
      rw [fetch_cons_eq c gfp f rest hidle]
      simp only [List.isEmpty_cons, List.length_cons]
      by_cases hk : gfp = Gfp.kernel ∧ rest.isEmpty
      · rw [if_pos hk, add_allocCalls]
        have hr : rest = [] := (listIsEmpty_iff rest).1 hk.2
        have hl : rest.length + 1 ≤ 1 := by simp [hr]
        rw [if_neg (by simp), if_pos ⟨hk.1, hl⟩]
        simp
      · rw [if_neg hk]
        have hno : ¬(gfp = Gfp.kernel ∧ rest.length + 1 ≤ 1) := by
          intro hcontra
          apply hk
          refine ⟨hcontra.1, (listIsEmpty_iff rest).2 ?_⟩
          have := hcontra.2
          cases rest with
          | nil => rfl
          | cons a t => simp at this
        rw [if_neg (by simp), if_neg hno]
        simp
    | nil =>
      rw [fetch_nil_eq c gfp hidle]
      by_cases hk : gfp = Gfp.kernel
      · rw [if_pos hk, add_allocCalls, add_allocCalls]
        rw [if_pos (by simp), if_pos ⟨hk, by simp⟩]
      · rw [if_neg hk, add_allocCalls]
        rw [if_pos (by simp), if_neg (by simp [hk])]
        simp

/-- A cache holding exactly one idle fragment, id 5, with an allocator
that would next yield fragment 9. -/
def cacheW : CacheState :=
  { idle := [5], active := [], count_active := 0, count_idle := 1,
    count_allocated := 1, count_allocated_kernel := 0, count_fetched := 0,
    allocSupply := [some 9], allocCalls := [] }

theorem c6_cache_fetch_witness :
    (dma_fragment_cache_fetch cacheW Gfp.atomic).1 = some 5 ∧
    (dma_fragment_cache_fetch cacheW Gfp.atomic).2.active = 5 :: cacheW.active :=
  (c6_cache_fetch cacheW Gfp.atomic).1 5 [] rfl

/-- Claim C10: every invocation of the cache fetch increments the fetch
counter by exactly one — whether the fragment came from idle, was freshly
allocated, or the allocation failed and NULL is returned — so
`count_fetched` counts fetch attempts. -/
theorem c10_count_fetched_increment (c : CacheState) (gfp : Gfp) :
    (dma_fragment_cache_fetch c gfp).2.count_fetched = c.count_fetched + 1 := by
  cases hidle : c.idle with
  | nil =>
    rw [fetch_nil_eq c gfp hidle]
    split
    · rw [add_count_fetched, add_count_fetched]
    · rw [add_count_fetched]
  | cons f rest =>
    rw [fetch_cons_eq c gfp f rest hidle]
    split
    · rw [add_count_fetched]
    · rfl

/-- Claim C8: returning a fragment that records an owning cache moves it,
under the cache lock, from the active list to the idle list and adjusts
both counters; returning a fragment with no owning cache takes the loud
failure path — an error is logged, nothing in the cache is modified, and
the call is not silently accepted. -/
theorem c8_cache_return (c : CacheState) (fid : Nat) :
    (fid ∈ c.active → c.active.Nodup →
        (dma_fragment_cache_return true fid c).1.idle = fid :: c.idle ∧
        fid ∉ (dma_fragment_cache_return true fid c).1.active ∧
        (dma_fragment_cache_return true fid c).1.count_idle = c.count_idle + 1 ∧
        (dma_fragment_cache_return true fid c).1.count_active
          = c.count_active - 1 ∧
        (dma_fragment_cache_return true fid c).2 = false) ∧
    ((dma_fragment_cache_return false fid c).1 = c ∧
     (dma_fragment_cache_return false fid c).2 = true) := by
  constructor
  · intro _ hnd
    refine ⟨rfl, ?_, rfl, rfl, rfl⟩
    simpa [dma_fragment_cache_return] using hnd.not_mem_erase
  · exact ⟨rfl, rfl⟩

/-- A cache whose active list holds exactly fragment 5. -/
def cacheA : CacheState :=
  { idle := [], active := [5], count_active := 1, count_idle := 0,
    count_allocated := 1, count_allocated_kernel := 0, count_fetched := 1,
    allocSupply := [], allocCalls := [] }

theorem c8_cache_return_witness :
    (dma_fragment_cache_return true 5 cacheA).1.idle = 5 :: cacheA.idle ∧
    5 ∉ (dma_fragment_cache_return true 5 cacheA).1.active ∧
    (dma_fragment_cache_return true 5 cacheA).1.count_idle
      = cacheA.count_idle + 1 ∧
    (dma_fragment_cache_return true 5 cacheA).1.count_active
      = cacheA.count_active - 1 ∧
    (dma_fragment_cache_return true 5 cacheA).2 = false :=
  (c8_cache_return cacheA 5).1 (by simp [cacheA]) (by simp [cacheA])

/-! ## Lemmas about descriptor links -/

theorem foldl_add_dma_link_fid :
    ∀ (ls : List DmaLink) (f : DmaFragment),
      (ls.foldl dma_fragment_add_dma_link f).fid = f.fid := by
  intro ls
  induction ls with
  | nil => intro f; rfl
  | cons a rest ih =>
    intro f
    simpa using ih (dma_fragment_add_dma_link f a)

theorem foldl_add_dma_link_inv :
    ∀ (ls : List DmaLink) (f : DmaFragment),
      (∀ l1 ∈ f.dma_link_list, l1.fragment = some f.fid) →
      ∀ l1 ∈ (ls.foldl dma_fragment_add_dma_link f).dma_link_list,
        l1.fragment = some f.fid := by
  intro ls
  induction ls with
  | nil => intro f h; simpa using h
  | cons a rest ih =>
    intro f h
    simp only [List.foldl_cons]
    have hstep : ∀ l1 ∈ (dma_fragment_add_dma_link f a).dma_link_list,
        l1.fragment = some (dma_fragment_add_dma_link f a).fid := by
      intro l1 hmem
      simp only [dma_fragment_add_dma_link, List.mem_append,
        List.mem_singleton] at hmem
      rcases hmem with hmem | hmem
      · exact h l1 hmem
      · subst hmem; simp [dma_fragment_add_dma_link]
    have := ih (dma_fragment_add_dma_link f a) hstep
    simpa [dma_fragment_add_dma_link] using this

/-- Claim C9: adding a descriptor link to a fragment sets the link's
`fragment` back-reference to that fragment (the appended last element
carries it); therefore the all-links-point-back invariant is preserved by
every add, and any fragment built by adding links to a freshly initialised
fragment has every link of its `dma_link_list` pointing back to its
owner. -/
theorem c9_link_backref (f : DmaFragment) (l : DmaLink) (ls : List DmaLink)
    (fid : Nat) :
    ((dma_fragment_add_dma_link f l).dma_link_list.getLast?
        = some { lid := l.lid, fragment := some f.fid }) ∧
    ((∀ l1 ∈ f.dma_link_list, l1.fragment = some f.fid) →
      ∀ l1 ∈ (dma_fragment_add_dma_link f l).dma_link_list,
        l1.fragment = some f.fid) ∧
    (∀ l1 ∈ (ls.foldl dma_fragment_add_dma_link
        (dma_fragment_init fid)).dma_link_list,
      l1.fragment = some fid) := by
  refine ⟨?_, ?_, ?_⟩
  · simp [dma_fragment_add_dma_link]
  · intro h l1 hmem
    simp only [dma_fragment_add_dma_link, List.mem_append,
      List.mem_singleton] at hmem
    rcases hmem with hmem | hmem
    · exact h l1 hmem
    · rw [hmem]
  · intro l1 hmem
    exact foldl_add_dma_link_inv ls (dma_fragment_init fid) (by simp [dma_fragment_init]) l1 hmem

theorem c9_link_backref_witness :
    ((dma_fragment_add_dma_link ⟨7, [⟨1, some 7⟩]⟩ ⟨3, none⟩).dma_link_list.getLast?
        = some ⟨3, some 7⟩) ∧
    (⟨3, some 7⟩ : DmaLink).fragment = some 7 := by
  have h := c9_link_backref ⟨7, [⟨1, some 7⟩]⟩ ⟨3, none⟩ [⟨4, none⟩] 9
  exact ⟨h.1, h.2.1 (by decide) ⟨3, some 7⟩ (by decide)⟩

/-! ## Submission-time rejection -/

/-- Claim C7: a message with an empty transfer list is rejected at
submission with -EINVAL by the verification step that runs before the
driver's transfer hook; the system state — queue, hardware registers and
every cache's idle/active lists and counters — is returned untouched, so
no cache fetch has occurred. -/
theorem c7_empty_rejected (sys : Sys) (msg : Msg)
    (h : msg.transfers = []) :
    spi_async sys msg = (-EINVAL, sys) := by
  simp [spi_async, spi_verify, h, EINVAL]

/-- A message with no operations at all. -/
def msgEmpty : Msg := { transfers := [], hasComplete := true, complete_data := none }

theorem c7_empty_rejected_witness :
    spi_async sys0 msgEmpty = (-EINVAL, sys0) :=
  c7_empty_rejected sys0 msgEmpty rfl

/-! ## Lemmas about the merge engine -/

theorem merge_cache_fst_some (c : CacheState) (gfp : Gfp) (b : Bool)
    (tag : CacheTag) (e : ChainElem) (acc acc1 : MergeAcc)
    (h : (spi_merged_dma_fragment_merge_fragment_cache c gfp b tag e acc).1
          = some acc1) :
    acc1.chain = acc.chain ++ [e] := by
  unfold spi_merged_dma_fragment_merge_fragment_cache at h
  cases hf : dma_fragment_cache_fetch c gfp with
  | mk o c2 =>
    rw [hf] at h
    cases o with
    | none => simp at h
    | some fid =>
      cases b with
      | false => simp at h
      | true =>
        simp only [if_pos] at h
        simp only [Option.some.injEq] at h
        rw [← h]

theorem spliceSetup_fst (caches : Caches) (binds : List Bool) (gfp : Gfp)
    (acc : MergeAcc) (x : Xfer) :
    (spliceSetup caches binds gfp acc x).1
      = (spi_merged_dma_fragment_merge_fragment_cache caches.setup gfp
          (headBind binds) CacheTag.setupT
          (ChainElem.setupE x.speed_hz x.tx_nbits x.rx_nbits x.bits_per_word)
          acc).1 := by
  unfold spliceSetup
  cases spi_merged_dma_fragment_merge_fragment_cache caches.setup gfp
      (headBind binds) CacheTag.setupT
      (ChainElem.setupE x.speed_hz x.tx_nbits x.rx_nbits x.bits_per_word) acc with
  | mk r c1 => rfl

theorem spliceTransfer_fst (caches : Caches) (binds : List Bool) (gfp : Gfp)
    (acc : MergeAcc) (len : Nat) :
    (spliceTransfer caches binds gfp acc len).1
      = (spi_merged_dma_fragment_merge_fragment_cache caches.transfer gfp
          (headBind binds) CacheTag.transferT (ChainElem.transferE len) acc).1 := by
  unfold spliceTransfer
  cases spi_merged_dma_fragment_merge_fragment_cache caches.transfer gfp
      (headBind binds) CacheTag.transferT (ChainElem.transferE len) acc with
  | mk r c1 => rfl

theorem spliceDeselect_fst (caches : Caches) (binds : List Bool) (gfp : Gfp)
    (acc : MergeAcc) :
    (spliceDeselect caches binds gfp acc).1
      = (spi_merged_dma_fragment_merge_fragment_cache caches.deselect gfp
          (headBind binds) CacheTag.deselectT ChainElem.deselectE acc).1 := by
  unfold spliceDeselect
  cases spi_merged_dma_fragment_merge_fragment_cache caches.deselect gfp
      (headBind binds) CacheTag.deselectT ChainElem.deselectE acc with
  | mk r c1 => rfl

theorem spliceDelay_fst (caches : Caches) (binds : List Bool) (gfp : Gfp)
    (acc : MergeAcc) (usecs : Nat) :
    (spliceDelay caches binds gfp acc usecs).1
      = (spi_merged_dma_fragment_merge_fragment_cache caches.delay gfp
          (headBind binds) CacheTag.delayT (ChainElem.delayE usecs) acc).1 := by
  unfold spliceDelay
  cases spi_merged_dma_fragment_merge_fragment_cache caches.delay gfp
      (headBind binds) CacheTag.delayT (ChainElem.delayE usecs) acc with
  | mk r c1 => rfl

theorem spliceTrigger_fst (caches : Caches) (binds : List Bool) (gfp : Gfp)
    (acc : MergeAcc) :
    (spliceTrigger caches binds gfp acc).1
      = (spi_merged_dma_fragment_merge_fragment_cache caches.trigger gfp
          (headBind binds) CacheTag.triggerT ChainElem.triggerE acc).1 := by
  unfold spliceTrigger
  cases spi_merged_dma_fragment_merge_fragment_cache caches.trigger gfp
      (headBind binds) CacheTag.triggerT ChainElem.triggerE acc with
  | mk r c1 => rfl

theorem spliceSetup_chain (caches : Caches) (binds : List Bool) (gfp : Gfp)
    (acc : MergeAcc) (x : Xfer) (acc1 : MergeAcc) (c1 : Caches) (b1 : List Bool)
    (h : spliceSetup caches binds gfp acc x = (some acc1, c1, b1)) :
    acc1.chain = acc.chain
      ++ [ChainElem.setupE x.speed_hz x.tx_nbits x.rx_nbits x.bits_per_word] := by
  have hf : (spliceSetup caches binds gfp acc x).1 = some acc1 := by rw [h]
  rw [spliceSetup_fst] at hf
  exact merge_cache_fst_some _ _ _ _ _ _ _ hf

theorem spliceTransfer_chain (caches : Caches) (binds : List Bool) (gfp : Gfp)
    (acc : MergeAcc) (len : Nat) (acc1 : MergeAcc) (c1 : Caches) (b1 : List Bool)
    (h : spliceTransfer caches binds gfp acc len = (some acc1, c1, b1)) :
    acc1.chain = acc.chain ++ [ChainElem.transferE len] := by
  have hf : (spliceTransfer caches binds gfp acc len).1 = some acc1 := by rw [h]
  rw [spliceTransfer_fst] at hf
  exact merge_cache_fst_some _ _ _ _ _ _ _ hf

theorem spliceDeselect_chain (caches : Caches) (binds : List Bool) (gfp : Gfp)
    (acc : MergeAcc) (acc1 : MergeAcc) (c1 : Caches) (b1 : List Bool)
    (h : spliceDeselect caches binds gfp acc = (some acc1, c1, b1)) :
    acc1.chain = acc.chain ++ [ChainElem.deselectE] := by
  have hf : (spliceDeselect caches binds gfp acc).1 = some acc1 := by rw [h]
  rw [spliceDeselect_fst] at hf
  exact merge_cache_fst_some _ _ _ _ _ _ _ hf

theorem spliceDelay_chain (caches : Caches) (binds : List Bool) (gfp : Gfp)
    (acc : MergeAcc) (usecs : Nat) (acc1 : MergeAcc) (c1 : Caches) (b1 : List Bool)
    (h : spliceDelay caches binds gfp acc usecs = (some acc1, c1, b1)) :
    acc1.chain = acc.chain ++ [ChainElem.delayE usecs] := by
  have hf : (spliceDelay caches binds gfp acc usecs).1 = some acc1 := by rw [h]
  rw [spliceDelay_fst] at hf
  exact merge_cache_fst_some _ _ _ _ _ _ _ hf

theorem spliceTrigger_chain (caches : Caches) (binds : List Bool) (gfp : Gfp)
    (acc : MergeAcc) (acc1 : MergeAcc) (c1 : Caches) (b1 : List Bool)
    (h : spliceTrigger caches binds gfp acc = (some acc1, c1, b1)) :
    acc1.chain = acc.chain ++ [ChainElem.triggerE] := by
  have hf : (spliceTrigger caches binds gfp acc).1 = some acc1 := by rw [h]
  rw [spliceTrigger_fst] at hf
  exact merge_cache_fst_some _ _ _ _ _ _ _ hf

theorem setup_step_chain (caches : Caches) (binds : List Bool) (gfp : Gfp)
    (acc : MergeAcc) (x : Xfer) (nv : Bool) (acc1 : MergeAcc) (c1 : Caches)
    (b1 : List Bool)
    (h : (if nv then spliceSetup caches binds gfp acc x
          else (some acc, caches, binds)) = (some acc1, c1, b1)) :
    acc1.chain = acc.chain
      ++ (if nv then
            [ChainElem.setupE x.speed_hz x.tx_nbits x.rx_nbits x.bits_per_word]
          else []) := by
  by_cases hn : nv = true
  · rw [if_pos hn] at h
    rw [if_pos hn]
    exact spliceSetup_chain _ _ _ _ _ _ _ _ h
  · rw [if_neg hn] at h
    rw [if_neg hn]
    simp only [Prod.mk.injEq, Option.some.injEq] at h
    rw [← h.1]
    simp

theorem transfer_step_chain (caches : Caches) (binds : List Bool) (gfp : Gfp)
    (acc : MergeAcc) (len : Nat) (acc1 : MergeAcc) (c1 : Caches)
    (b1 : List Bool)
    (h : (if len ≠ 0 then spliceTransfer caches binds gfp acc len
          else (some acc, caches, binds)) = (some acc1, c1, b1)) :
    acc1.chain = acc.chain
      ++ (if len ≠ 0 then [ChainElem.transferE len] else []) := by
  by_cases hx : len ≠ 0
  · rw [if_pos hx] at h
    rw [if_pos hx]
    exact spliceTransfer_chain _ _ _ _ _ _ _ _ h
  · rw [if_neg hx] at h
    rw [if_neg hx]
    simp only [Prod.mk.injEq, Option.some.injEq] at h
    rw [← h.1]
    simp

theorem boundary_step_chain (caches : Caches) (binds : List Bool) (gfp : Gfp)
    (acc : MergeAcc) (x : Xfer) (is_last : Bool) (acc1 : MergeAcc) (c1 : Caches)
    (b1 : List Bool)
    (h : (if x.cs_change || is_last then spliceDeselect caches binds gfp acc
          else if x.delay_usecs ≠ 0 then
            spliceDelay caches binds gfp acc x.delay_usecs
          else (some acc, caches, binds)) = (some acc1, c1, b1)) :
    acc1.chain = acc.chain
      ++ (if x.cs_change || is_last then [ChainElem.deselectE]
          else if x.delay_usecs ≠ 0 then [ChainElem.delayE x.delay_usecs]
          else []) := by
  by_cases hcs : (x.cs_change || is_last) = true
  · rw [if_pos hcs] at h
    rw [if_pos hcs]
    exact spliceDeselect_chain _ _ _ _ _ _ _ h
  · rw [if_neg hcs] at h
    rw [if_neg hcs]
    by_cases hd : x.delay_usecs ≠ 0
    · rw [if_pos hd] at h
      rw [if_pos hd]
      exact spliceDelay_chain _ _ _ _ _ _ _ _ h
    · rw [if_neg hd] at h
      rw [if_neg hd]
      simp only [Prod.mk.injEq, Option.some.injEq] at h
      rw [← h.1]
      simp

theorem mergeOneXfer_chain (gfp : Gfp) (cur : Option Xfer) (acc : MergeAcc)
    (caches : Caches) (binds : List Bool) (x : Xfer) (is_last : Bool)
    (needs1 : Bool) (last1 : Option Xfer) (acc1 : MergeAcc)
    (caches1 : Caches) (binds1 : List Bool)
    (h : mergeOneXfer gfp cur.isNone cur acc caches binds x is_last
          = (some (needs1, last1, acc1), caches1, binds1)) :
    needs1 = false ∧ last1 = (if x.len ≠ 0 then some x else cur) ∧
      acc1.chain = acc.chain ++ claimOpElems cur x is_last := by
  have hnc : needsCheck cur.isNone cur x = some (claimNeedsSetup cur x) := by
    cases cur <;> simp [needsCheck, claimNeedsSetup]
  unfold mergeOneXfer at h
  split at h
  · simp at h
  · rename_i nv heq
    split at h
    · simp at h
    · rename_i a1 cs1 bs1 heq1
      split at h
      · simp at h
      · rename_i a2 cs2 bs2 heq2
        split at h
        · simp at h
        · rename_i a3 cs3 bs3 heq3
          simp only [Prod.mk.injEq, Option.some.injEq] at h
          obtain ⟨⟨hn, hl, ha⟩, _, _⟩ := h
          refine ⟨hn.symm, hl.symm, ?_⟩
          have hnv : nv = claimNeedsSetup cur x := by
            rw [heq] at hnc
            exact Option.some.inj hnc
          have e1 := setup_step_chain _ _ _ _ _ _ _ _ _ heq1
          have e2 := transfer_step_chain _ _ _ _ _ _ _ _ heq2
          have e3 := boundary_step_chain _ _ _ _ _ _ _ _ _ heq3
          rw [← ha, e3, e2, e1]
          unfold claimOpElems
          rw [← hnv]
          simp [List.append_assoc]

theorem mergeXfers_cons (gfp : Gfp) (x : Xfer) (rest : List Xfer)
    (needs : Bool) (cur : Option Xfer) (acc : MergeAcc) (caches : Caches)
    (binds : List Bool) :
    mergeXfers gfp (x :: rest) needs cur acc caches binds
      = match mergeOneXfer gfp needs cur acc caches binds x rest.isEmpty with
        | (none, caches1, binds1) => (none, caches1, binds1)
        | (some (needs1, last1, acc1), caches1, binds1) =>
          mergeXfers gfp rest needs1 last1 acc1 caches1 binds1 := rfl

theorem mergeXfers_stuck (gfp : Gfp) (x : Xfer) (rest : List Xfer)
    (acc : MergeAcc) (caches : Caches) (binds : List Bool) :
    mergeXfers gfp (x :: rest) false none acc caches binds
      = (none, caches, binds) := rfl

theorem mergeXfers_chain (gfp : Gfp) :
    ∀ (xfers : List Xfer) (needs : Bool) (cur : Option Xfer) (acc : MergeAcc)
      (caches : Caches) (binds : List Bool)
      (res : Bool × Option Xfer × MergeAcc) (caches1 : Caches)
      (binds1 : List Bool),
      (needs = cur.isNone ∨ (needs = false ∧ cur = none)) →
      mergeXfers gfp xfers needs cur acc caches binds
        = (some res, caches1, binds1) →
      res.2.2.chain = acc.chain ++ claimExpectedChain cur xfers := by
  intro xfers
  induction xfers with
  | nil =>
    intro needs cur acc caches binds res caches1 binds1 hcorr h
    simp only [mergeXfers, Prod.mk.injEq, Option.some.injEq] at h
    rw [← h.1]
    simp [claimExpectedChain]
  | cons x rest ih =>
    intro needs cur acc caches binds res caches1 binds1 hcorr h
    rcases hcorr with hcorr | ⟨hneeds, hcur⟩
    · subst hcorr
      rw [mergeXfers_cons] at h
      split at h
      · simp at h
      · rename_i needs1 last1 acc1 cs1 bs1 heq
        obtain ⟨hn, hl, hchain⟩ :=
          mergeOneXfer_chain gfp cur acc caches binds x rest.isEmpty
            needs1 last1 acc1 cs1 bs1 heq
        subst hn
        subst hl
        have hcorr2 : (false : Bool)
              = (if x.len ≠ 0 then some x else cur).isNone
            ∨ ((false : Bool) = false
              ∧ (if x.len ≠ 0 then some x else cur) = none) := by
          by_cases hx : x.len ≠ 0
          · rw [if_pos hx]
            left
            rfl
          · rw [if_neg hx]
            cases cur with
            | some c => left; rfl
            | none => right; exact ⟨rfl, rfl⟩
        have hrec := ih false (if x.len ≠ 0 then some x else cur) acc1 cs1 bs1
          res caches1 binds1 hcorr2 h
        rw [hrec, hchain]
        simp [claimExpectedChain, List.append_assoc]
    · subst hneeds
      subst hcur
      rw [mergeXfers_stuck] at h
      simp at h

/-- Claim C5, amended: whenever the merge engine successfully compiles a
message, the compiled chain is exactly the claim-side chain in which a
configuration-setup element appears before an operation exactly when no
configuration has been set yet or the operation's configuration (rate,
line widths, word size) differs from the tracked current one — where the
tracked current configuration is that of the last preceding operation of
NON-ZERO length: a zero-length operation splices a setup when it differs
but does not update the tracked configuration, so the next operation is
compared against the stale one.  For operations of non-zero length this
coincides with the original claim, and in particular the claim's example
compiles to [setup(A), transfer(4), transfer(4), boundary]. -/
theorem c5_setup_splice (caches : Caches) (binds : List Bool) (gfp : Gfp)
    (msg : Msg) (mf : MergedFrag)
    (h : (bcm2835dma_spi_message_to_dma_fragment caches binds gfp msg).1
          = some mf) :
    mf.chain = claimChain msg := by
  unfold bcm2835dma_spi_message_to_dma_fragment at h
  split at h
  · simp at h
  · rename_i mid cm heqf
    split at h
    · simp at h
    · rename_i a b acc1 cs1 bs1 heqm
      have em :=
        mergeXfers_chain gfp msg.transfers true none
          { chain := [], spliced := [] } { caches with merged := cm } binds
          (a, b, acc1) cs1 bs1 (Or.inl rfl) heqm
      simp only [List.nil_append] at em
      by_cases hc : msg.hasComplete = true
      · rw [if_pos hc] at h
        split at h
        · simp at h
        · rename_i acc2 cs2 bs2 heqt
          simp only [Option.some.injEq] at h
          have et := spliceTrigger_chain _ _ _ _ _ _ _ heqt
          rw [← h]
          unfold claimChain
          rw [if_pos hc, et, em]
      · rw [if_neg hc] at h
        simp only [Option.some.injEq] at h
        rw [← h]
        unfold claimChain
        rw [if_neg hc, em]
        simp

/-- A cache pre-warmed with the given idle fragment ids and no allocator
supply. -/
def cacheI (ids : List Nat) : CacheState :=
  { idle := ids, active := [], count_active := 0, count_idle := ids.length,
    count_allocated := ids.length, count_allocated_kernel := 0,
    count_fetched := 0, allocSupply := [], allocCalls := [] }

/-- Pre-warmed caches for the merge-rule example. -/
def cachesEx : Caches :=
  { merged := cacheI [1, 2], setup := cacheI [3, 4], transfer := cacheI [5, 6],
    deselect := cacheI [7], delay := cacheI [8], trigger := cacheI [9] }

/-- The example operation of the merge-rule table: configuration A
(100 Hz, single-bit lines, 8-bit words), length 4, no explicit deselect,
no delay. -/
def xA : Xfer :=
  { speed_hz := 100, tx_nbits := 1, rx_nbits := 1, bits_per_word := 8,
    len := 4, cs_change := false, delay_usecs := 0 }

/-- The merge-rule example message: two identically configured length-4
operations, the second one a boundary because it is last. -/
def msgEx : Msg :=
  { transfers := [xA, xA], hasComplete := false, complete_data := none }

theorem c5_setup_splice_witness :
    ((bcm2835dma_spi_message_to_dma_fragment cachesEx [] Gfp.atomic msgEx).1.map
        MergedFrag.chain) = some (claimChain msgEx) ∧
    claimChain msgEx
      = [ChainElem.setupE 100 1 1 8, ChainElem.transferE 4,
         ChainElem.transferE 4, ChainElem.deselectE] := by
  have hch : (bcm2835dma_spi_message_to_dma_fragment cachesEx [] Gfp.atomic
      msgEx).1
      = some { mergedId := 1,
               chain := [ChainElem.setupE 100 1 1 8, ChainElem.transferE 4,
                         ChainElem.transferE 4, ChainElem.deselectE],
               spliced := [(CacheTag.setupT, 3), (CacheTag.transferT, 5),
                           (CacheTag.transferT, 6), (CacheTag.deselectT, 7)] } := by
    decide
  have h5 := c5_setup_splice cachesEx [] Gfp.atomic msgEx _ hch
  constructor
  · rw [hch]
    simpa using h5
  · rw [← h5]

/-- Caches pre-warmed for the duplicate-setup counterexample. -/
def cachesDup : Caches :=
  { merged := cacheI [20], setup := cacheI [21, 22, 23],
    transfer := cacheI [24, 25], deselect := cacheI [26],
    delay := cacheI [], trigger := cacheI [] }

/-- A zero-length operation with configuration B (200 Hz). -/
def xB0 : Xfer :=
  { speed_hz := 200, tx_nbits := 1, rx_nbits := 1, bits_per_word := 8,
    len := 0, cs_change := false, delay_usecs := 0 }

/-- A length-4 operation with the same configuration B. -/
def xB4 : Xfer :=
  { speed_hz := 200, tx_nbits := 1, rx_nbits := 1, bits_per_word := 8,
    len := 4, cs_change := false, delay_usecs := 0 }

/-- The counterexample message: a cfg-A transfer, then a zero-length
cfg-B operation, then a cfg-B transfer. -/
def msgDup : Msg :=
  { transfers := [xA, xB0, xB4], hasComplete := false, complete_data := none }

/-- Claim C5 counterexample: operations [cfg A len 4, cfg B len 0,
cfg B len 4].  The second and third operations carry the identical
configuration B, yet the compiled chain contains setup(B) twice — before
each of them — because `merged->last_transfer` is only updated for
non-zero-length transfers (spi-bcm2835dma_drv.c:463-477), so the third
operation is compared against the stale cfg-A transfer.  Under the
original claim's rule (configuration recorded as current whenever a setup
is spliced, `origClaimChain`) the two consecutive cfg-B operations would
share a single setup, so the code's chain differs from the claimed one. -/
theorem c5_counterexample :
    ((bcm2835dma_spi_message_to_dma_fragment cachesDup [] Gfp.atomic
        msgDup).1.map MergedFrag.chain)
      = some [ChainElem.setupE 100 1 1 8, ChainElem.transferE 4,
              ChainElem.setupE 200 1 1 8, ChainElem.setupE 200 1 1 8,
              ChainElem.transferE 4, ChainElem.deselectE] ∧
    origClaimChain none msgDup.transfers
      = [ChainElem.setupE 100 1 1 8, ChainElem.transferE 4,
         ChainElem.setupE 200 1 1 8,
         ChainElem.transferE 4, ChainElem.deselectE] ∧
    ((bcm2835dma_spi_message_to_dma_fragment cachesDup [] Gfp.atomic
        msgDup).1.map MergedFrag.chain)
      ≠ some (origClaimChain none msgDup.transfers) := by
  refine ⟨by decide, by decide, by decide⟩

/-! ## The merge-abort error path -/

/-- Caches for the failing-merge scenario: one idle fragment in each of
the merged (10), setup (11) and transfer (12) caches. -/
def cachesErr : Caches :=
  { merged := cacheI [10], setup := cacheI [11], transfer := cacheI [12],
    deselect := cacheI [], delay := cacheI [], trigger := cacheI [] }

/-- A single-operation message used in the failing-merge scenario. -/
def msgErr : Msg :=
  { transfers := [xA], hasComplete := false, complete_data := none }

/-- Claim C4 counterexample: compile `msgErr` with bind oracle
[true, false] — the setup splice succeeds, the transfer splice hits a
Pre-transform bind failure.  The merge engine aborts and returns NULL as
the claim says, but contrary to the claim the fragments already spliced
into the in-progress chain are NOT returned to their caches: the setup
fragment 11 and the merged container 10 remain on their caches' active
lists and the idle lists stay empty, because the error path
(spi-bcm2835dma_drv.c:519-529) only prints and dumps. -/
theorem c4_counterexample :
    (bcm2835dma_spi_message_to_dma_fragment cachesErr [true, false]
        Gfp.atomic msgErr).1 = none ∧
    (bcm2835dma_spi_message_to_dma_fragment cachesErr [true, false]
        Gfp.atomic msgErr).2.1.setup.active = [11] ∧
    (bcm2835dma_spi_message_to_dma_fragment cachesErr [true, false]
        Gfp.atomic msgErr).2.1.setup.idle = [] ∧
    (bcm2835dma_spi_message_to_dma_fragment cachesErr [true, false]
        Gfp.atomic msgErr).2.1.merged.active = [10] ∧
    (bcm2835dma_spi_message_to_dma_fragment cachesErr [true, false]
        Gfp.atomic msgErr).2.1.merged.idle = [] := by
  decide

/-- Claim C4, amended: when compilation of a message fails — a fragment
fetch or a Pre-transform bind failure at any point — the merge engine
aborts and the submission path returns -ENOMEM to the submitter with the
transaction queue untouched and nothing handed to the scheduler; the
cache states are exactly those the failed merge left behind — no
unwinding is performed, so the fragments already spliced into the
in-progress chain stay on their caches' active lists. -/
theorem c4_abort_no_unwind (sys : Sys) (msg : Msg) (caches1 : Caches)
    (binds1 : List Bool)
    (h : bcm2835dma_spi_message_to_dma_fragment sys.caches sys.binds
          Gfp.atomic msg = (none, caches1, binds1)) :
    bcm2835dma_spi_transfer sys msg
      = (-ENOMEM, { sys with caches := caches1, binds := binds1 }) := by
  unfold bcm2835dma_spi_transfer
  rw [h]

/-- The failing-merge system state. -/
def sysErr : Sys :=
  { sys0 with caches := cachesErr, binds := [true, false] }

theorem c4_abort_no_unwind_witness :
    bcm2835dma_spi_transfer sysErr msgErr
      = (-ENOMEM,
          { sysErr with
              caches := (bcm2835dma_spi_message_to_dma_fragment sysErr.caches
                sysErr.binds Gfp.atomic msgErr).2.1
              binds := (bcm2835dma_spi_message_to_dma_fragment sysErr.caches
                sysErr.binds Gfp.atomic msgErr).2.2 }) :=
  c4_abort_no_unwind sysErr msgErr _ _ (by
    have h1 : (bcm2835dma_spi_message_to_dma_fragment sysErr.caches
        sysErr.binds Gfp.atomic msgErr).1 = none := by decide
    rw [← h1])

end SpiBcm2835Dma
